import Mathlib

/-!
Verification development for the chat application repository, centred on the
call-signaling coordinator (`GroupVideoCall.tsx`, its near-duplicate embedded
in `PhilosophicalQuote.tsx`, and the one-to-one `VideoCall` embedded in
`GroupMessages.tsx`).  Each definition is a shallow embedding of the JavaScript
source it names; user identifiers and Firestore field values are modelled as
Lean strings, JavaScript numbers appearing in candidate records as integers,
and possibly-missing record fields as `Option`.
-/

namespace GroupVideoCall

/-- From GroupVideoCall.tsx line 569 (and line 479 inside
`onconnectionstatechange`): the participant with the lexicographically smaller
user ID creates the SDP offer.  JavaScript string comparison is modelled by
lexicographic comparison of Lean strings. -/
def shouldCreateOffer (currentUserId participantId : String) : Bool :=
  decide (currentUserId < participantId)

/-- From GroupVideoCall.tsx lines 624-626 and 657-659: the shared
connection-document identifier used both by the `onicecandidate` writer and by
the offer/answer and candidate listeners. -/
def connectionId (currentUserId participantId : String) : String :=
  if shouldCreateOffer currentUserId participantId
  then currentUserId ++ "_" ++ participantId
  else participantId ++ "_" ++ currentUserId

/-- From GroupVideoCall.tsx lines 628-635: the Firestore path segments of the
candidates subcollection a side writes its own ICE candidates to. -/
def candidatesPath (callDocId currentUserId participantId : String) :
    List String :=
  ["groupCalls", callDocId, "connections",
   connectionId currentUserId participantId, "candidates"]

/-- From GroupVideoCall.tsx line 597: the document identifier under which the
offerer stores its offer. -/
def offerDocId (currentUserId participantId : String) : String :=
  currentUserId ++ "_" ++ participantId

/-- From GroupVideoCall.tsx lines 473-483: inside `onconnectionstatechange`,
when the connection state is failed or disconnected, the side whose user ID is
lexicographically smaller calls `restartIce`. -/
def attemptsIceRestart (currentUserId participantId connState : String) :
    Bool :=
  decide (connState = "failed" ∨ connState = "disconnected") &&
    shouldCreateOffer currentUserId participantId

end GroupVideoCall

namespace PhilosophicalQuote

/-- From PhilosophicalQuote.tsx line 458: the offerer-selection rule of the
duplicated group-call component. -/
def shouldCreateOffer (currentUserId participantId : String) : Bool :=
  decide (currentUserId < participantId)

/-- From PhilosophicalQuote.tsx lines 482-484 and 504-506: the
connection-document identifier of the duplicated group-call component. -/
def connectionId (currentUserId participantId : String) : String :=
  if shouldCreateOffer currentUserId participantId
  then currentUserId ++ "_" ++ participantId
  else participantId ++ "_" ++ currentUserId

end PhilosophicalQuote

/-- Claim C1: in a group call the offerer role for a pair of distinct
participant IDs is decided by plain string comparison: the side with the
lexicographically smaller ID offers, exactly one side of any distinct pair
takes the offerer role, and the same comparison gates the ICE restart
performed on a failed or disconnected connection. -/
theorem groupCall_offerer_role (a b : String) (hne : a ≠ b) :
    (GroupVideoCall.shouldCreateOffer a b = decide (a < b)) ∧
    (GroupVideoCall.shouldCreateOffer a b = true ∨
      GroupVideoCall.shouldCreateOffer b a = true) ∧
    ¬(GroupVideoCall.shouldCreateOffer a b = true ∧
      GroupVideoCall.shouldCreateOffer b a = true) ∧
    (∀ st : String, GroupVideoCall.attemptsIceRestart a b st =
      (decide (st = "failed" ∨ st = "disconnected") &&
        GroupVideoCall.shouldCreateOffer a b)) := by
  refine ⟨rfl, ?_, ?_, fun st => rfl⟩
  · rcases lt_or_gt_of_ne hne with h | h
    · exact Or.inl (by simpa [GroupVideoCall.shouldCreateOffer] using h)
    · exact Or.inr (by simpa [GroupVideoCall.shouldCreateOffer] using h)
  · rintro ⟨h1, h2⟩
    have hab : a < b := by
      simpa [GroupVideoCall.shouldCreateOffer] using h1
    have hba : b < a := by
      simpa [GroupVideoCall.shouldCreateOffer] using h2
    exact absurd hba (lt_asymm hab)

/-- Witness for C1 at the concrete distinct pair "a", "b". -/
theorem groupCall_offerer_role_witness :
    (GroupVideoCall.shouldCreateOffer "a" "b" = true ∨
      GroupVideoCall.shouldCreateOffer "b" "a" = true) :=
  (groupCall_offerer_role "a" "b" (by decide)).2.1

/-- Claim C3: both sides of a distinct pair compute the same
connection-document identifier, equal to the lexicographically smaller ID
(the offerer) followed by an underscore and the larger ID (the answerer);
consequently the offer document written by the offerer and the candidates
subcollection path used by either side coincide. -/
theorem groupCall_connectionId_agreement (a b : String) (hne : a ≠ b) :
    GroupVideoCall.connectionId a b = GroupVideoCall.connectionId b a ∧
    GroupVideoCall.connectionId a b = min a b ++ "_" ++ max a b ∧
    (a < b → GroupVideoCall.offerDocId a b = GroupVideoCall.connectionId a b) ∧
    (∀ c : String, GroupVideoCall.candidatesPath c a b =
      GroupVideoCall.candidatesPath c b a) := by
  rcases lt_or_gt_of_ne hne with h | h
  · have hab : GroupVideoCall.shouldCreateOffer a b = true := by
      simpa [GroupVideoCall.shouldCreateOffer] using h
    have hba : GroupVideoCall.shouldCreateOffer b a = false := by
      simpa [GroupVideoCall.shouldCreateOffer] using lt_asymm h
    have h1 : GroupVideoCall.connectionId a b = a ++ "_" ++ b := by
      simp [GroupVideoCall.connectionId, hab]
    have h2 : GroupVideoCall.connectionId b a = a ++ "_" ++ b := by
      simp [GroupVideoCall.connectionId, hba]
    refine ⟨h1.trans h2.symm, ?_, ?_, ?_⟩
    · rw [h1, min_eq_left (le_of_lt h), max_eq_right (le_of_lt h)]
    · intro _
      simp [GroupVideoCall.offerDocId, h1]
    · intro c
      simp [GroupVideoCall.candidatesPath, h1, h2]
  · have hab : GroupVideoCall.shouldCreateOffer a b = false := by
      simpa [GroupVideoCall.shouldCreateOffer] using lt_asymm h
    have hba : GroupVideoCall.shouldCreateOffer b a = true := by
      simpa [GroupVideoCall.shouldCreateOffer] using h
    have h1 : GroupVideoCall.connectionId a b = b ++ "_" ++ a := by
      simp [GroupVideoCall.connectionId, hab]
    have h2 : GroupVideoCall.connectionId b a = b ++ "_" ++ a := by
      simp [GroupVideoCall.connectionId, hba]
    refine ⟨h1.trans h2.symm, ?_, ?_, ?_⟩
    · rw [h1, min_eq_right (le_of_lt h), max_eq_left (le_of_lt h)]
    · intro hlt
      exact absurd h (lt_asymm hlt)
    · intro c
      simp [GroupVideoCall.candidatesPath, h1, h2]

/-- Witness for C3 at the concrete distinct pair "a", "b". -/
theorem groupCall_connectionId_agreement_witness :
    GroupVideoCall.connectionId "a" "b" = GroupVideoCall.connectionId "b" "a" :=
  (groupCall_connectionId_agreement "a" "b" (by decide)).1

/-- Claim C9: the group-call component duplicated in GroupVideoCall.tsx and
PhilosophicalQuote.tsx computes, for every pair of participant IDs, the same
offerer-selection result and the same connection-document identifier. -/
theorem groupCall_duplicates_equivalent (a b : String) :
    GroupVideoCall.shouldCreateOffer a b =
      PhilosophicalQuote.shouldCreateOffer a b ∧
    GroupVideoCall.connectionId a b = PhilosophicalQuote.connectionId a b :=
  ⟨rfl, rfl⟩

namespace GroupVideoCall

/-- A Firestore ICE candidate record as read by the group-call candidate
listener (GroupVideoCall.tsx lines 757-801).  Missing fields are `none`;
`sdpMLineIndex` is a JavaScript number, `candidate` and `sdpMid` are strings. -/
structure CandidateRecord where
  sender : String
  candidate : Option String
  sdpMid : Option String
  sdpMLineIndex : Option Int
  deriving Repr, DecidableEq

/-- JavaScript truthiness of a possibly-missing number field: falsy when the
field is absent or zero. -/
def truthyNum : Option Int → Bool
  | none => false
  | some n => decide (n ≠ 0)

/-- JavaScript truthiness of a possibly-missing string field: falsy when the
field is absent or the empty string. -/
def truthyStr : Option String → Bool
  | none => false
  | some s => decide (s ≠ "")

/-- Outcome of the candidate listener on one added document change. -/
inductive ListenerResult where
  | ignoredOwn
  | rejectedIncomplete
  | addedNow
  | scheduledRetry (delayMs : Nat)
  deriving Repr, DecidableEq

/-- From GroupVideoCall.tsx lines 758-794: the body of the candidates
`onSnapshot` handler for an added change.  Changes from the current user are
skipped; records failing the truthiness guard on `sdpMLineIndex`, `candidate`
and `sdpMid` are rejected as incomplete; otherwise the candidate is added
immediately when the remote description is set, and a single 2000 ms retry is
scheduled when it is not. -/
def handleCandidateChange (currentUserId : String) (data : CandidateRecord)
    (remoteDescriptionSet : Bool) : ListenerResult :=
  if data.sender = currentUserId then .ignoredOwn
  else if !truthyNum data.sdpMLineIndex || !truthyStr data.candidate ||
      !truthyStr data.sdpMid then .rejectedIncomplete
  else if remoteDescriptionSet then .addedNow
  else .scheduledRetry 2000

/-- Result of the 2000 ms retry callback. -/
structure RetryResult where
  added : Bool
  furtherRetryDelaysMs : List Nat
  deriving Repr, DecidableEq

/-- From GroupVideoCall.tsx lines 784-793: the `setTimeout` callback adds the
stored candidate when the remote description has appeared and otherwise does
nothing; in neither case does it schedule another retry. -/
def candidateRetryFire (remoteDescriptionSet : Bool) : RetryResult :=
  if remoteDescriptionSet then ⟨true, []⟩ else ⟨false, []⟩

end GroupVideoCall

/-- Claim C2: a remote candidate that passes the completeness guard and
arrives while the remote description is unset is not added immediately and
exactly one retry is scheduled 2000 ms later; if the remote description is
still absent when that retry fires, the candidate is not added and no further
retry is scheduled. -/
theorem groupCall_candidate_single_retry (uid : String)
    (d : GroupVideoCall.CandidateRecord) (hs : d.sender ≠ uid)
    (hml : GroupVideoCall.truthyNum d.sdpMLineIndex = true)
    (hc : GroupVideoCall.truthyStr d.candidate = true)
    (hm : GroupVideoCall.truthyStr d.sdpMid = true) :
    GroupVideoCall.handleCandidateChange uid d false =
      GroupVideoCall.ListenerResult.scheduledRetry 2000 ∧
    GroupVideoCall.candidateRetryFire false =
      { added := false, furtherRetryDelaysMs := [] } := by
  constructor
  · simp [GroupVideoCall.handleCandidateChange, hs, hml, hc, hm]
  · rfl

/-- Witness for C2 at a concrete complete remote candidate record. -/
theorem groupCall_candidate_single_retry_witness :
    GroupVideoCall.handleCandidateChange "me"
      ⟨"peer", some "cand", some "0", some 1⟩ false =
      GroupVideoCall.ListenerResult.scheduledRetry 2000 :=
  (groupCall_candidate_single_retry "me" ⟨"peer", some "cand", some "0", some 1⟩
    (by decide) (by decide) (by decide) (by decide)).1

/-- Claim C5: the incomplete-data guard tests JavaScript truthiness, so every
candidate record whose `sdpMLineIndex` is 0 is rejected as incomplete even
when `candidate` and `sdpMid` are present and non-empty, whatever the state of
the remote description. -/
theorem groupCall_guard_rejects_mline_zero (uid : String)
    (d : GroupVideoCall.CandidateRecord) (hs : d.sender ≠ uid)
    (hml : d.sdpMLineIndex = some 0)
    (_hc : GroupVideoCall.truthyStr d.candidate = true)
    (_hm : GroupVideoCall.truthyStr d.sdpMid = true)
    (remoteDescriptionSet : Bool) :
    GroupVideoCall.handleCandidateChange uid d remoteDescriptionSet =
      GroupVideoCall.ListenerResult.rejectedIncomplete := by
  simp [GroupVideoCall.handleCandidateChange, hs, hml,
    GroupVideoCall.truthyNum]

/-- Witness for C5: a record with `sdpMLineIndex = 0` and non-empty
`candidate` and `sdpMid` is rejected. -/
theorem groupCall_guard_rejects_mline_zero_witness :
    GroupVideoCall.handleCandidateChange "me"
      ⟨"peer", some "cand", some "0", some 0⟩ true =
      GroupVideoCall.ListenerResult.rejectedIncomplete :=
  groupCall_guard_rejects_mline_zero "me" ⟨"peer", some "cand", some "0", some 0⟩
    (by decide) rfl (by decide) (by decide) true

namespace VideoCall

/-- From GroupMessages.tsx lines 1694-1700: the `onicecandidate` handler of
the one-to-one `VideoCall.startCall`.  It appends the candidate to the
`offerCandidates` store only when both the event carries a candidate and the
captured `callDocId` is non-null. -/
def startCallIceHandler (capturedCallDocId : Option String)
    (candidate : Option String) (offerCandidates : List String) :
    List String :=
  match candidate, capturedCallDocId with
  | some c, some _ => offerCandidates ++ [c]
  | _, _ => offerCandidates

/-- From GroupMessages.tsx lines 1608 and 1694-1722: `callDocId` is component
state initialised to null; `startCall` installs the `onicecandidate` handler
at line 1695, and `setCallDocId` runs only at line 1722, after the offer is
created.  The handler closure therefore captures the render-scope value of
`callDocId`, which is null. -/
def startCallCapturedCallDocId : Option String := none

end VideoCall

/-- Claim C4: every ICE candidate event delivered to the handler installed by
`startCall` leaves the `offerCandidates` store unchanged, because the handler
captured `callDocId` while it was still null and only writes when the
captured value is non-null. -/
theorem videoCall_offer_candidates_never_published (candidate : Option String)
    (offerCandidates : List String) :
    VideoCall.startCallIceHandler VideoCall.startCallCapturedCallDocId
      candidate offerCandidates = offerCandidates := by
  cases candidate <;> rfl

namespace GroupVideoCall

/-- What kind of local stream the media-acquisition fallback produced. -/
inductive MediaKind where
  | videoAudio
  | audioOnly
  | emptyStream
  deriving Repr, DecidableEq

/-- The state `initializeCall` leaves the media flags in after the fallback
chain. -/
structure MediaResult where
  kind : MediaKind
  videoOff : Bool
  micMuted : Bool
  viewOnly : Bool
  deriving Repr, DecidableEq

/-- From GroupVideoCall.tsx lines 280-329: local media acquisition with
fallbacks.  The environment is whether each `getUserMedia` request would
succeed: first video plus audio is tried; on failure audio only, setting the
video-off flag; on failure again an empty `MediaStream` with video off and
microphone muted, joining in view-only mode.  The flags start from the
`useState(false)` initial values of lines 105-106.  The function is total:
every environment yields a stream and the join proceeds. -/
def acquireLocalMedia (videoAudioGranted audioGranted : Bool) : MediaResult :=
  if videoAudioGranted then
    { kind := .videoAudio, videoOff := false, micMuted := false,
      viewOnly := false }
  else if audioGranted then
    { kind := .audioOnly, videoOff := true, micMuted := false,
      viewOnly := false }
  else
    { kind := .emptyStream, videoOff := true, micMuted := true,
      viewOnly := true }

/-- A `groupCalls` record as manipulated by cleanup (GroupVideoCall.tsx lines
140-187).  `hasEndTime` records whether an `endTime` field has been written. -/
structure GroupCallRecord where
  creatorId : String
  status : String
  participants : List String
  hasEndTime : Bool
  deriving Repr, DecidableEq

/-- From GroupVideoCall.tsx lines 156-174: the update cleanup applies to the
call record when a participant leaves.  The leaver is filtered out of the
participants array; when the leaver is the creator or the resulting array is
empty the status is set to ended and an end time is written, otherwise only
the participants array is replaced. -/
def cleanupUpdate (currentUserId : String) (rec : GroupCallRecord) :
    GroupCallRecord :=
  let updatedParticipants := rec.participants.filter (fun x => x ≠ currentUserId)
  if rec.creatorId = currentUserId ∨ updatedParticipants = [] then
    { rec with
      status := "ended", participants := updatedParticipants,
      hasEndTime := true }
  else
    { rec with participants := updatedParticipants }

/-- Unfolding lemma for `cleanupUpdate` when the leaver is the creator or the
remaining participants array is empty. -/
theorem cleanupUpdate_pos (me : String) (rec : GroupCallRecord)
    (h : rec.creatorId = me ∨ rec.participants.filter (fun x => x ≠ me) = []) :
    cleanupUpdate me rec =
      { rec with
        status := "ended",
        participants := rec.participants.filter (fun x => x ≠ me),
        hasEndTime := true } := by
  simp only [cleanupUpdate]
  rw [if_pos h]

/-- Unfolding lemma for `cleanupUpdate` in the remaining case. -/
theorem cleanupUpdate_neg (me : String) (rec : GroupCallRecord)
    (h : ¬(rec.creatorId = me ∨
      rec.participants.filter (fun x => x ≠ me) = [])) :
    cleanupUpdate me rec =
      { rec with participants := rec.participants.filter (fun x => x ≠ me) } := by
  simp only [cleanupUpdate]
  rw [if_neg h]

end GroupVideoCall

/-- Claim C6: joining a group call acquires local media through the fallback
chain video plus audio, then audio only with video off, then an empty stream
with video off and microphone muted in view-only mode; the acquisition
produces a result in every environment, so the join never aborts solely
because camera or microphone permission is denied. -/
theorem groupCall_media_fallback_chain :
    (∀ audioGranted : Bool, GroupVideoCall.acquireLocalMedia true audioGranted =
      { kind := .videoAudio, videoOff := false, micMuted := false,
        viewOnly := false }) ∧
    GroupVideoCall.acquireLocalMedia false true =
      { kind := .audioOnly, videoOff := true, micMuted := false,
        viewOnly := false } ∧
    GroupVideoCall.acquireLocalMedia false false =
      { kind := .emptyStream, videoOff := true, micMuted := true,
        viewOnly := true } := by
  refine ⟨fun audioGranted => rfl, rfl, rfl⟩

/-- Claim C7: on leaving a group call, cleanup removes the leaver from the
participants array; when the leaver is the creator or the remaining array is
empty the status becomes ended and an end time is written, otherwise only the
participants array changes and the status and end-time fields are untouched. -/
theorem groupCall_cleanup_update (me : String)
    (rec : GroupVideoCall.GroupCallRecord) :
    (GroupVideoCall.cleanupUpdate me rec).participants =
      rec.participants.filter (fun x => x ≠ me) ∧
    me ∉ (GroupVideoCall.cleanupUpdate me rec).participants ∧
    (GroupVideoCall.cleanupUpdate me rec).creatorId = rec.creatorId ∧
    ((rec.creatorId = me ∨ rec.participants.filter (fun x => x ≠ me) = []) →
      (GroupVideoCall.cleanupUpdate me rec).status = "ended" ∧
      (GroupVideoCall.cleanupUpdate me rec).hasEndTime = true) ∧
    (¬(rec.creatorId = me ∨ rec.participants.filter (fun x => x ≠ me) = []) →
      (GroupVideoCall.cleanupUpdate me rec).status = rec.status ∧
      (GroupVideoCall.cleanupUpdate me rec).hasEndTime = rec.hasEndTime) := by
  by_cases h : rec.creatorId = me ∨ rec.participants.filter (fun x => x ≠ me) = []
  · rw [GroupVideoCall.cleanupUpdate_pos me rec h]
    exact ⟨rfl, by simp [List.mem_filter], rfl, fun _ => ⟨rfl, rfl⟩,
      fun hn => absurd h hn⟩
  · rw [GroupVideoCall.cleanupUpdate_neg me rec h]
    exact ⟨rfl, by simp [List.mem_filter], rfl, fun hy => absurd hy h,
      fun _ => ⟨rfl, rfl⟩⟩

/-- Witness for C7: the creator leaving a two-person call ends it. -/
theorem groupCall_cleanup_update_witness :
    (GroupVideoCall.cleanupUpdate "a"
      { creatorId := "a", status := "active", participants := ["a", "b"],
        hasEndTime := false }).status = "ended" :=
  ((groupCall_cleanup_update "a"
      { creatorId := "a", status := "active", participants := ["a", "b"],
        hasEndTime := false }).2.2.2.1 (Or.inl rfl)).1

namespace GroupVideoCall

/-- A document of the `groupCalls` collection as read and written by
`initializeCall` (GroupVideoCall.tsx lines 190-278).  `id` is the Firestore
document identifier. -/
structure CallDoc where
  id : String
  groupId : String
  creatorId : String
  status : String
  participants : List String
  deriving Repr, DecidableEq

/-- From GroupVideoCall.tsx lines 193-199: the query for the group's active
call records, modelled as a filter of the collection held as a list. -/
def activeCallsFor (store : List CallDoc) (groupId : String) : List CallDoc :=
  store.filter (fun d => d.groupId = groupId && d.status = "active")

/-- From GroupVideoCall.tsx lines 201-278: `initializeCall` on the
`groupCalls` store.  When the active-call query is empty a fresh document is
added with status active, the current user as creator and a singleton
participants array; otherwise the first matching document is joined, the
current user being appended to its participants array unless already present.
Returns the updated store and the chosen call document identifier. -/
def initializeCallStore (store : List CallDoc) (groupId currentUserId : String)
    (freshId : String) : List CallDoc × String :=
  match activeCallsFor store groupId with
  | [] =>
      (store ++ [{ id := freshId, groupId := groupId,
                   creatorId := currentUserId, status := "active",
                   participants := [currentUserId] }], freshId)
  | d :: _ =>
      if currentUserId ∈ d.participants then (store, d.id)
      else
        (store.map (fun e =>
          if e.id = d.id then
            { e with participants := e.participants ++ [currentUserId] }
          else e), d.id)

end GroupVideoCall

/-- Claim C8: `initializeCall` creates a call record when the group has no
active one — with status active, the current user as creator and a singleton
participants array — and otherwise joins the first active record, appending
the current user unless already present; in both cases the store afterwards
holds an active record for the group containing the current user. -/
theorem groupCall_initialize_create_or_join (store : List GroupVideoCall.CallDoc)
    (gid me fresh : String) :
    ((GroupVideoCall.activeCallsFor store gid = []) →
      GroupVideoCall.initializeCallStore store gid me fresh =
        (store ++ [{ id := fresh, groupId := gid, creatorId := me,
                     status := "active", participants := [me] }], fresh)) ∧
    (∀ d rest, GroupVideoCall.activeCallsFor store gid = d :: rest →
      me ∈ d.participants →
      GroupVideoCall.initializeCallStore store gid me fresh = (store, d.id)) ∧
    (∃ doc ∈ (GroupVideoCall.initializeCallStore store gid me fresh).1,
      doc.groupId = gid ∧ doc.status = "active" ∧ me ∈ doc.participants) := by
  refine ⟨?_, ?_, ?_⟩
  · intro h
    simp [GroupVideoCall.initializeCallStore, h]
  · intro d rest h hmem
    simp [GroupVideoCall.initializeCallStore, h, hmem]
  · rcases hq : GroupVideoCall.activeCallsFor store gid with _ | ⟨d, rest⟩
    · refine ⟨{ id := fresh, groupId := gid, creatorId := me,
                status := "active", participants := [me] }, ?_, rfl, rfl, ?_⟩
      · simp [GroupVideoCall.initializeCallStore, hq]
      · simp
    · have hd : d ∈ store ∧ (d.groupId = gid && d.status = "active") = true := by
        have : d ∈ store.filter (fun e => e.groupId = gid && e.status = "active") := by
          rw [← GroupVideoCall.activeCallsFor, hq]; exact List.mem_cons_self d rest
        exact List.mem_filter.mp this
      have hgid : d.groupId = gid := by
        have := hd.2
        simp only [Bool.and_eq_true, decide_eq_true_eq] at this
        exact this.1
      have hst : d.status = "active" := by
        have := hd.2
        simp only [Bool.and_eq_true, decide_eq_true_eq] at this
        exact this.2
      by_cases hmem : me ∈ d.participants
      · refine ⟨d, ?_, hgid, hst, hmem⟩
        simp [GroupVideoCall.initializeCallStore, hq, hmem]
        exact hd.1
      · refine ⟨{ d with participants := d.participants ++ [me] }, ?_, hgid, hst, by simp⟩
        have hstore : (GroupVideoCall.initializeCallStore store gid me fresh).1 =
            store.map (fun e =>
              if e.id = d.id then
                { e with participants := e.participants ++ [me] }
              else e) := by
          simp [GroupVideoCall.initializeCallStore, hq, hmem]
        rw [hstore]
        have : ({ d with participants := d.participants ++ [me] } :
            GroupVideoCall.CallDoc) =
            (fun e => if e.id = d.id then
              { e with participants := e.participants ++ [me] }
            else e) d := by simp
        rw [this]
        exact List.mem_map_of_mem _ hd.1

/-- Witness for C8: creating a call in an empty store. -/
theorem groupCall_initialize_create_or_join_witness :
    GroupVideoCall.initializeCallStore [] "g" "me" "doc1" =
      ([{ id := "doc1", groupId := "g", creatorId := "me",
          status := "active", participants := ["me"] }], "doc1") :=
  (groupCall_initialize_create_or_join [] "g" "me" "doc1").1 rfl

namespace GroupVideoCall

/-- From GroupVideoCall.tsx lines 250-259: joining appends the current user to
the participants array only when the array does not already include that
user. -/
def joinParticipants (userId : String) (ps : List String) : List String :=
  if userId ∈ ps then ps else ps ++ [userId]

/-- From GroupVideoCall.tsx lines 156-159: leaving filters the user out of the
participants array. -/
def leaveParticipants (userId : String) (ps : List String) : List String :=
  ps.filter (fun x => x ≠ userId)

/-- A join or leave step applied to a participants array by the component. -/
inductive CallEvent where
  | join (userId : String)
  | leave (userId : String)
  deriving Repr, DecidableEq

/-- Apply one join or leave step. -/
def applyEvent (ev : CallEvent) (ps : List String) : List String :=
  match ev with
  | .join u => joinParticipants u ps
  | .leave u => leaveParticipants u ps

/-- The participants array obtained from creation (GroupVideoCall.tsx line
211, the singleton array of the creator) followed by a trace of join and
leave steps. -/
def runEvents (creatorId : String) (evs : List CallEvent) : List String :=
  evs.foldl (fun ps ev => applyEvent ev ps) [creatorId]

/-- Joining preserves duplicate-freeness. -/
theorem joinParticipants_nodup (u : String) (ps : List String)
    (h : ps.Nodup) : (joinParticipants u ps).Nodup := by
  unfold joinParticipants
  by_cases hm : u ∈ ps
  · simpa [hm] using h
  · simp only [hm, if_false]
    simpa [List.nodup_append] using ⟨h, hm⟩

/-- Leaving preserves duplicate-freeness. -/
theorem leaveParticipants_nodup (u : String) (ps : List String)
    (h : ps.Nodup) : (leaveParticipants u ps).Nodup :=
  h.filter _

/-- Every single step preserves duplicate-freeness. -/
theorem applyEvent_nodup (ev : CallEvent) (ps : List String)
    (h : ps.Nodup) : (applyEvent ev ps).Nodup := by
  cases ev with
  | join u => exact joinParticipants_nodup u ps h
  | leave u => exact leaveParticipants_nodup u ps h

end GroupVideoCall

/-- Claim C10: starting from creation with the singleton participants array,
every sequence of join and leave steps performed by the component leaves the
participants array free of duplicate user IDs. -/
theorem groupCall_participants_nodup (creatorId : String)
    (evs : List GroupVideoCall.CallEvent) :
    (GroupVideoCall.runEvents creatorId evs).Nodup := by
  unfold GroupVideoCall.runEvents
  have general : ∀ (l : List GroupVideoCall.CallEvent) (ps : List String),
      ps.Nodup →
      (l.foldl (fun ps ev => GroupVideoCall.applyEvent ev ps) ps).Nodup := by
    intro l
    induction l with
    | nil => intro ps h; exact h
    | cons ev rest ih =>
        intro ps h
        exact ih _ (GroupVideoCall.applyEvent_nodup ev ps h)
  exact general evs [creatorId] (by simp)
